import Mathlib

/-!
Verification development for the Huldra storage-benchmarking artifacts
(`code/integration/onedrive.js`, `code/integration/googledrive.js`, the
Dropbox integration, `code/testing/perfHelpers.js` and the shared
`usePerformanceMetrics` hook): a shallow embedding of the case-validation,
case-selection, listing and performance-metric logic, with theorems about
their behaviour.

JavaScript strings are embedded as Lean `String`s; the handful of string
primitives the code uses (`split`, `toLowerCase`, `toUpperCase`, `endsWith`,
`charAt`, concatenation) are re-implemented over the underlying character
list so that all definitions evaluate inside the kernel.
-/

namespace Huldra

/-! ## JavaScript string primitives -/

/-- Helper for `jsSplit`: splits a character list on a separator character,
accumulating the current segment in reverse. -/
def splitOnCharAux (sep : Char) : List Char → List Char → List (List Char)
  | [], acc => [acc.reverse]
  | c :: rest, acc =>
    if c = sep then acc.reverse :: splitOnCharAux sep rest []
    else splitOnCharAux sep rest (c :: acc)

/-- JavaScript `s.split(sep)` for a single-character separator (the only form
the code uses: `split('-')`, `split('/')`, `split('.')`). -/
def jsSplit (sep : Char) (s : String) : List String :=
  (splitOnCharAux sep s.data []).map (fun l => ⟨l⟩)

/-- JavaScript `s.toLowerCase()` (ASCII case mapping suffices for the
case-type prefixes the code compares). -/
def jsToLower (s : String) : String := ⟨s.data.map Char.toLower⟩

/-- JavaScript `s.toUpperCase()`. -/
def jsToUpper (s : String) : String := ⟨s.data.map Char.toUpper⟩

/-- JavaScript `s.endsWith(suffix)`. -/
def jsEndsWith (s sfx : String) : Bool := sfx.data.isSuffixOf s.data

/-- JavaScript string concatenation / template literals. -/
def jsConcat (a b : String) : String := ⟨a.data ++ b.data⟩

/-! ## CaseValidator: `checkAssets` (`onedrive.js` lines 97-107)

The backend listing call (`listFilesFromOneDrive`) is abstracted as a
function from the folder path to the list of file names it returns. -/

/-- `checkAssetsInOneDrive` (`onedrive.js` lines 97-107): lists the files
under `folderPath` and compares the count against the per-type switch.
The identically-shaped switch also appears in `checkAssetsInAzure`,
`checkAssetsInGoogleDrive` and Dropbox `checkAssets`. -/
def checkAssetsInOneDrive (listFiles : String → List String)
    (folderPath caseType : String) : Bool :=
  let assets := listFiles folderPath
  if caseType = "image" then decide (assets.length ≥ 3)
  else if caseType = "audio" then decide (assets.length ≥ 2)
  else if caseType = "video" then decide (assets.length ≥ 2)
  else if caseType = "text" then decide (assets.length ≥ 2)
  else if caseType = "hybrid" then decide (assets.length ≥ 3)
  else false

/-- The spec's per-type asset-count threshold table (§3): image and hybrid
require 3 assets, audio, video and text require 2; any other case type has
no threshold. -/
def specThreshold (caseType : String) : Option Nat :=
  if caseType = "image" ∨ caseType = "hybrid" then some 3
  else if caseType = "audio" ∨ caseType = "video" ∨ caseType = "text" then some 2
  else none

/-! ## CaseValidator over a fallible backend (`validateCasesInOneDrive`)

`listFilesFromOneDrive` rejects on any API failure (`onedrive.js` line 72);
neither `checkAssetsInOneDrive` nor `validateCasesInOneDrive` catches, so a
rejection propagates into the `Promise.all` join. The fallible listing is
modelled as `Except`. -/

/-- `checkAssetsInOneDrive` over the fallible listing: awaits
`listFilesFromOneDrive` with no catch, so a listing failure propagates;
otherwise runs the same per-type switch (`onedrive.js` lines 97-107). -/
def checkAssetsInOneDriveE (listFiles : String → Except String (List String))
    (folderPath caseType : String) : Except String Bool :=
  match listFiles folderPath with
  | .error e => .error e
  | .ok assets =>
    .ok (if caseType = "image" then decide (assets.length ≥ 3)
      else if caseType = "audio" then decide (assets.length ≥ 2)
      else if caseType = "video" then decide (assets.length ≥ 2)
      else if caseType = "text" then decide (assets.length ≥ 2)
      else if caseType = "hybrid" then decide (assets.length ≥ 3)
      else false)

/-- The prefix-to-type derivation of `validateCasesInOneDrive`
(`onedrive.js` lines 115 and 118):
`lookup[caseName.split('-')[0].toLowerCase()] || 'image'`. -/
def caseTypeOfName (caseName : String) : String :=
  let pfx := jsToLower ((jsSplit '-' caseName).headD "")
  if pfx = "audio" then "audio"
  else if pfx = "video" then "video"
  else if pfx = "hybrid" then "hybrid"
  else if pfx = "text" then "text"
  else "image"

/-- `Promise.all` over the per-case check results: all values when every
promise fulfils, a rejection when any promise rejects (modelled
deterministically as the first rejection in input order). -/
def promiseAll : List (Except String Bool) → Except String (List Bool)
  | [] => .ok []
  | r :: rest =>
    match r with
    | .error e => .error e
    | .ok b =>
      match promiseAll rest with
      | .error e => .error e
      | .ok bs => .ok (b :: bs)

/-- `validateCasesInOneDrive` (`onedrive.js` lines 114-122): maps each case
name to a `checkAssetsInOneDrive` call on `/gallery/cases/<name>` — with no
per-case error handling — and joins with `Promise.all`. -/
def validateCasesInOneDriveE (listFiles : String → Except String (List String))
    (cases : List String) : Except String (List Bool) :=
  promiseAll (cases.map (fun caseName =>
    checkAssetsInOneDriveE listFiles (jsConcat "/gallery/cases/" caseName)
      (caseTypeOfName caseName)))

/-- Decidable equality for `Except`, so that concrete validation outcomes
can be checked by evaluation. -/
instance {ε α : Type} [DecidableEq ε] [DecidableEq α] :
    DecidableEq (Except ε α) := fun a b =>
  match a, b with
  | .error x, .error y =>
    if h : x = y then .isTrue (congrArg Except.error h)
    else .isFalse (fun hc => h (Except.error.inj hc))
  | .ok x, .ok y =>
    if h : x = y then .isTrue (congrArg Except.ok h)
    else .isFalse (fun hc => h (Except.ok.inj hc))
  | .error _, .ok _ => .isFalse (fun hc => Except.noConfusion hc)
  | .ok _, .error _ => .isFalse (fun hc => Except.noConfusion hc)

/-- Concrete backend for exercising `validateCasesInOneDrive` under failure:
listing the folder of case `audio-x` fails with a network error, every other
folder lists three files. -/
def lfBad : String → Except String (List String) := fun p =>
  if p = "/gallery/cases/audio-x" then .error "network"
  else .ok ["f1", "f2", "f3"]

/-! ## perfHelpers.js: `SIZE_MAP` (lines 17-37) -/

/-- `ALL_FILES` (`perfHelpers.js` lines 17-27): the fixed test-file
manifest. -/
def ALL_FILES : List String :=
  ["video-test1-a.mp4", "video-test1-b.mp4", "video-test2-a.mp4",
   "audio-test1-a.mp3", "audio-test1-b.mp3", "audio-test2-a.mp3",
   "image-test-a.jpg", "image-test-b.jpg", "text-sample-a.txt"]

/-- `SIZE_LABEL_MAP` (`perfHelpers.js` line 30): maps the single-letter keys
`a`/`b`/`c` to size labels; any other key is absent (JS `undefined`). The key
is a string of at most one character (the result of `charAt(0)`), embedded as
a character list. -/
def SIZE_LABEL_MAP (key : List Char) : Option String :=
  if key = ['a'] then some "small"
  else if key = ['b'] then some "medium"
  else if key = ['c'] then some "large"
  else none

/-- The key expression `fileName.split("-")[1].charAt(0)` of the `SIZE_MAP`
reducer (`perfHelpers.js` line 34): the first character of the second
hyphen-separated segment, as a string of at most one character. -/
def sizeKey (fileName : String) : List Char :=
  ((jsSplit '-' fileName).getD 1 "").data.take 1

/-- `SIZE_MAP` (`perfHelpers.js` lines 33-37): built by reducing `ALL_FILES`
into a map from file name to `SIZE_LABEL_MAP[key] || "unknown"`, embedded as
an association list in insertion order. -/
def SIZE_MAP : List (String × String) :=
  ALL_FILES.map (fun fileName =>
    (fileName, (SIZE_LABEL_MAP (sizeKey fileName)).getD "unknown"))

/-- JS `SIZE_MAP[fileName] || "unknown"` as used by the metrics hook. -/
def sizeMapLookup (fileName : String) : String :=
  ((SIZE_MAP.find? (fun e => decide (e.1 = fileName))).map (fun e => e.2)).getD "unknown"

/-! ## Listing and pagination

A paginated backend listing is modelled as the list of pages the backend
serves for a path: page 0 is the first response (`response.data.value` for
Microsoft Graph, `result.entries` for Dropbox), later pages are reachable
only through the continuation link (`@odata.nextLink`) or cursor
(`has_more` / `cursor`). -/

/-- An entry of a backend directory listing (a Graph `DriveItem` with its
`folder` facet, a Dropbox entry with its `.tag`). -/
structure DriveItem where
  name : String
  isFolder : Bool
deriving DecidableEq

/-- `listAllEntries` of the Dropbox integration (README lines 116-130):
fetches the first page, then follows the cursor while `has_more`,
concatenating every page's entries. The cursor chain is the recursion on
the remaining pages. -/
def listAllEntries : List (List DriveItem) → List DriveItem
  | [] => []
  | page :: rest => page ++ listAllEntries rest

/-- Dropbox `listFolders` (README lines 139-144): folder names from the
exhaustive `listAllEntries` listing. -/
def listFolders (pages : List (List DriveItem)) : List String :=
  ((listAllEntries pages).filter (fun e => e.isFolder)).map (fun e => e.name)

/-- `listFoldersFromOneDrive` (`onedrive.js` lines 53-60): issues a single
`GET .../children` request and reads `response.data.value` — the first page
only, never following `@odata.nextLink` — then filters folder items and maps
to names. (`listFilesInFolder` in `googledrive.js` lines 123-130 likewise
issues a single `files.list` call with no `pageToken` loop.) -/
def listFoldersFromOneDrive (pages : List (List DriveItem)) : List String :=
  ((pages.headD []).filter (fun e => e.isFolder)).map (fun e => e.name)

/-- The complete folder listing of a paginated backend: every folder name on
every page. -/
def allFolderNames (pages : List (List DriveItem)) : List String :=
  ((pages.flatten).filter (fun e => e.isFolder)).map (fun e => e.name)

/-- A two-page backend: each page holds one folder. -/
def twoPageBackend : List (List DriveItem) :=
  [[⟨"case-a", true⟩], [⟨"case-b", true⟩]]

/-! ## usePerformanceMetrics: the per-URL timing loop
(`googledrive.js` lines 309-342)

The outcome of one `fetch(url, { cache: "no-store" })` cycle is modelled as
`Option (ℚ × List (String × String))`: `none` when the request throws (the
`catch { continue }` branch), otherwise the elapsed wall-clock time
`t1 - t0` (as a rational) together with the response headers as
`(key, value)` pairs. -/

/-- `[...resp.headers.entries()].map(([k, v]) => k + ": " + v).join("\r\n")`
as a character list (`googledrive.js` lines 332-334). -/
def headersText : List (String × String) → List Char
  | [] => []
  | [kv] => kv.1.data ++ (": ").data ++ kv.2.data
  | kv :: rest => kv.1.data ++ (": ").data ++ kv.2.data ++ ("\r\n").data ++
      headersText rest

/-- `new TextEncoder().encode(headersText).length` (line 335): the UTF-8
byte length of the serialized headers. -/
def headerSizeBytesOf (headers : List (String × String)) : Nat :=
  ((headersText headers).map Char.utf8Size).sum

/-- The mutable state of the timing loop (`googledrive.js` lines 317-319):
`sumFetch`, `count` and `headerSize`. -/
structure CycleState where
  sumFetch : ℚ
  count : Nat
  headerSize : Nat

/-- One iteration of `for (let i = 0; i < ITER; i++)` (lines 320-340): a
failed fetch is skipped (`catch { continue }`); a successful cycle 0 records
only the header byte size; a successful cycle `i ≥ 1` accumulates the
elapsed time into `sumFetch` and bumps `count`. -/
def cycleStep (fetchCycle : Nat → Option (ℚ × List (String × String)))
    (s : CycleState) (i : Nat) : CycleState :=
  match fetchCycle i with
  | none => s
  | some (elapsed, headers) =>
    if i = 0 then { s with headerSize := headerSizeBytesOf headers }
    else { s with sumFetch := s.sumFetch + elapsed, count := s.count + 1 }

/-- `const ITER = 7` (`googledrive.js` line 309). -/
def ITER : Nat := 7

/-- The full timing loop over cycles `0 … 6`, from zero-initialised state. -/
def runCycles
    (fetchCycle : Nat → Option (ℚ × List (String × String))) : CycleState :=
  (List.range ITER).foldl (cycleStep fetchCycle) ⟨0, 0, 0⟩

/-- `const avgFetch = count > 0 ? sumFetch / count : 0` (line 342): the
value stored (rounded for display) as `fetchTimeMs`. -/
def avgFetch
    (fetchCycle : Nat → Option (ℚ × List (String × String))) : ℚ :=
  let s := runCycles fetchCycle
  if 0 < s.count then s.sumFetch / (s.count : ℚ) else 0

/-- Modelled from the spec (§4.5): the elapsed times of the successful
timed cycles 1-6 (cycle 0 excluded, failed cycles skipped). -/
def specTimedCycles
    (fetchCycle : Nat → Option (ℚ × List (String × String))) : List ℚ :=
  ([1, 2, 3, 4, 5, 6] : List Nat).filterMap
    (fun i => (fetchCycle i).map Prod.fst)

/-- Modelled from the spec (§4.5): the arithmetic mean of a list of
timings, `0` when the list is empty. -/
def specMean (l : List ℚ) : ℚ :=
  if l = [] then 0 else l.sum / (l.length : ℚ)

/-- A concrete cycle oracle whose cycle-0 header probe fails while cycles
1-6 succeed, taking `i` milliseconds each. -/
def cyclesHeaderProbeFails : Nat → Option (ℚ × List (String × String)) :=
  fun i => if i = 0 then none
    else some ((i : ℚ), [("content-type", "text/plain")])

/-! ## usePerformanceMetrics: records, session state and capture
(`googledrive.js` lines 282-377) -/

/-- `humanFileSize` (`perfHelpers.js` lines 40-46): keeps the scaled value
and the chosen unit; the `toFixed(2)` decimal rendering is display-only and
not modelled. `blob.size` is a non-negative integer, so the `isNaN`/negative
guard is unreachable here. -/
inductive HumanSize where
  | mb : ℚ → HumanSize
  | kb : ℚ → HumanSize
deriving DecidableEq

/-- `humanFileSize` (`perfHelpers.js` lines 40-46): `n >= 1e6` scales to MB,
otherwise to KB. -/
def humanFileSize (bytes : Nat) : HumanSize :=
  if bytes ≥ 1000000 then .mb ((bytes : ℚ) / 1000000)
  else .kb ((bytes : ℚ) / 1024)

/-- `humanMemoryDelta` (`perfHelpers.js` lines 49-53): bytes scaled to MB
(the `toFixed(2) + " MB"` rendering is display-only and not modelled). -/
def humanMemoryDelta (bytes : Nat) : ℚ := (bytes : ℚ) / (1024 * 1024)

/-- What the environment supplies for measuring one URL: the outcome of
each of the 7 timing cycles, the byte size delivered by the body-consuming
fetch (`none` when that fetch throws, leaving `blobSize` at 0), and the
heap sizes read immediately before and after it. -/
structure MeasureEnv where
  cycles : Nat → Option (ℚ × List (String × String))
  blobBytes : Option Nat
  memBefore : Nat
  memAfter : Nat

/-- One metric record, with the field names and order of the object literal
at `googledrive.js` lines 358-373. String-valued fields stay strings;
numeric fields keep their exact values (`toFixed(2)` is display-only). -/
structure MetricRecord where
  route : String
  storageProvider : String
  country : String
  continent : String
  fileURL : String
  fileName : String
  fileType : String
  size : String
  fileSize : HumanSize
  fetchTimeMs : ℚ
  throughputKBps : ℚ
  payloadKB : ℚ
  headerSizeBytes : Nat
  memoryDelta : ℚ
deriving DecidableEq

/-- The record built for one URL (`googledrive.js` lines 317-373): the
timing loop yields `avgFetch` and `headerSize`; the body fetch yields
`blobSize` (0 on failure); `memoryDelta` is `max(memAfter - memBefore, 0)`
(truncated subtraction on `Nat`); `throughputKBps` is
`payloadKB * 1000 / avgFetch` when `avgFetch > 0`, else 0. -/
def mkMetricRecord (providerName country continent routeKey url : String)
    (env : MeasureEnv) : MetricRecord :=
  let avg := avgFetch env.cycles
  let headerSize := (runCycles env.cycles).headerSize
  let blobSize := env.blobBytes.getD 0
  let memDelta := env.memAfter - env.memBefore
  let payloadKB : ℚ := (blobSize : ℚ) / 1024
  let throughputKBps : ℚ := if 0 < avg then payloadKB * 1000 / avg else 0
  let fileName := ((jsSplit '/' url).getLast?).getD ""
  { route := routeKey
    storageProvider := providerName
    country := country
    continent := continent
    fileURL := url
    fileName := fileName
    fileType := jsToUpper (((jsSplit '.' url).getLast?).getD "")
    size := sizeMapLookup fileName
    fileSize := humanFileSize blobSize
    fetchTimeMs := avg
    throughputKBps := throughputKBps
    payloadKB := payloadKB
    headerSizeBytes := headerSize
    memoryDelta := humanMemoryDelta memDelta }

/-- The session state the hook owns: the seen-URL set `recorded.current`
and the accumulated `allMetrics` log. -/
structure SessionState where
  recorded : List String
  allMetrics : List MetricRecord

/-- The per-URL body of the capture loop (`googledrive.js` lines 313-374):
an already-recorded URL is skipped (`continue`); otherwise the URL is added
to the seen set before measurement and its record is appended to the log. -/
def captureUrl (providerName country continent : String)
    (env : String → MeasureEnv) (routeKey : String)
    (st : SessionState) (url : String) : SessionState :=
  if url ∈ st.recorded then st
  else
    { recorded := url :: st.recorded
      allMetrics := st.allMetrics ++
        [mkMetricRecord providerName country continent routeKey url (env url)] }

/-- One navigation into a case-view route: the capture loop over that
case's URL list (`newMetrics` accumulation followed by the
`setAllMetrics(prev => [...prev, ...newMetrics])` append preserves exactly
this order). -/
def captureVisit (providerName country continent : String)
    (env : String → MeasureEnv) (routeKey : String)
    (st : SessionState) (urls : List String) : SessionState :=
  urls.foldl (captureUrl providerName country continent env routeKey) st

/-- A whole session: a sequence of route visits, each with its URL list,
starting from an empty seen set and an empty log. -/
def runSession (providerName country continent : String)
    (env : String → MeasureEnv)
    (visits : List (String × List String)) : SessionState :=
  visits.foldl
    (fun st v => captureVisit providerName country continent env v.1 st v.2)
    ⟨[], []⟩

/-- The number of records in a log whose `fileURL` is `url`. -/
def urlCount (ms : List MetricRecord) (url : String) : Nat :=
  (ms.filter (fun m => decide (m.fileURL = url))).length

/-! ## The export effect and its CSV table
(`googledrive.js` lines 383-401) -/

/-- A CSV cell: strings stay strings, numeric values keep their exact
magnitude (stringification is display-only). -/
inductive Cell where
  | str : String → Cell
  | rat : ℚ → Cell
  | nat : Nat → Cell
  | siz : HumanSize → Cell
deriving DecidableEq

/-- The key order of the metric-record object literal (`googledrive.js`
lines 358-373), as `Object.keys` returns it. -/
def metricKeys : List String :=
  ["route", "storageProvider", "country", "continent", "fileURL",
   "fileName", "fileType", "size", "fileSize", "fetchTimeMs",
   "throughputKBps", "payloadKB", "headerSizeBytes", "memoryDelta"]

/-- `Object.keys(m)` for a metric record: the insertion order of the object
literal, identical for every record. -/
def objectKeys (_ : MetricRecord) : List String := metricKeys

/-- JS property access `m[k]` on a metric record; `none` is `undefined`. -/
def fieldValue (m : MetricRecord) (key : String) : Option Cell :=
  if key = "route" then some (.str m.route)
  else if key = "storageProvider" then some (.str m.storageProvider)
  else if key = "country" then some (.str m.country)
  else if key = "continent" then some (.str m.continent)
  else if key = "fileURL" then some (.str m.fileURL)
  else if key = "fileName" then some (.str m.fileName)
  else if key = "fileType" then some (.str m.fileType)
  else if key = "size" then some (.str m.size)
  else if key = "fileSize" then some (.siz m.fileSize)
  else if key = "fetchTimeMs" then some (.rat m.fetchTimeMs)
  else if key = "throughputKBps" then some (.rat m.throughputKBps)
  else if key = "payloadKB" then some (.rat m.payloadKB)
  else if key = "headerSizeBytes" then some (.nat m.headerSizeBytes)
  else if key = "memoryDelta" then some (.rat m.memoryDelta)
  else none

/-- The CSV built by the export effect (`googledrive.js` lines 389-393):
for a non-empty log, `Object.keys` of the first record is the header, and
each record contributes one row — the header keys' values — in arrival
order. `none` for an empty log (the effect fires only when
`allMetrics.length > 0`). The textual joining with commas and newlines is
not modelled. -/
def csvTable :
    List MetricRecord → Option (List String × List (List (Option Cell)))
  | [] => none
  | m :: ms =>
    let headerKeys := objectKeys m
    some (headerKeys, (m :: ms).map (fun r => headerKeys.map (fieldValue r)))

/-- Modelled from the spec: the §3 MetricRecord column names, as the spec
spells them. -/
def specColumns : List String :=
  ["route", "provider", "country", "continent", "fileURL", "fileName",
   "fileType", "sizeLabel", "fileSizeHuman", "fetchTimeMs",
   "throughputKBps", "payloadKB", "headerSizeBytes", "memoryDeltaHuman"]

/-- The row a record contributes, as explicit field projections in the key
order of the record literal. -/
def specRow (m : MetricRecord) : List (Option Cell) :=
  [some (.str m.route), some (.str m.storageProvider), some (.str m.country),
   some (.str m.continent), some (.str m.fileURL), some (.str m.fileName),
   some (.str m.fileType), some (.str m.size), some (.siz m.fileSize),
   some (.rat m.fetchTimeMs), some (.rat m.throughputKBps),
   some (.rat m.payloadKB), some (.nat m.headerSizeBytes),
   some (.rat m.memoryDelta)]

/-- A concrete metric record for exercising the export. -/
def sampleRecord : MetricRecord :=
  { route := "case1"
    storageProvider := "azure"
    country := "Norway"
    continent := "Europe"
    fileURL := "https://x/video-test1-a.mp4"
    fileName := "video-test1-a.mp4"
    fileType := "MP4"
    size := "unknown"
    fileSize := .kb 0
    fetchTimeMs := 0
    throughputKBps := 0
    payloadKB := 0
    headerSizeBytes := 0
    memoryDelta := 0 }

/-- The guard of the download effect (`googledrive.js` lines 384-388):
`currentRoute.endsWith("/survey/end") && allMetrics.length > 0 &&
!hasDownloaded.current`. -/
def exportCondition (hasDownloaded : Bool) (currentRoute : String)
    (allMetrics : List MetricRecord) : Bool :=
  jsEndsWith currentRoute "/survey/end" && decide (0 < allMetrics.length) &&
    !hasDownloaded

/-- The download effect over a session (`googledrive.js` lines 383-401):
each entry of `events` is one invocation of the effect with the
`currentRoute` and `allMetrics` it observes; when the guard passes, the
file materialization (`a.click()`) is counted and `hasDownloaded.current`
is set. -/
def countExports : List (String × List MetricRecord) → Bool → Nat
  | [], _ => 0
  | ev :: rest, hasDownloaded =>
    if exportCondition hasDownloaded ev.1 ev.2
    then 1 + countExports rest true
    else countExports rest hasDownloaded

/-! ## CaseSelector: `fetchCasesFromAzure`
(`onedrive.js` file section `azure-integration`, lines 320-384) -/

/-- `checkAssetsInAzure` (lines 320-330): same per-type switch over the
Azure flat-blob listing, abstracted as a total function from path to blob
names. -/
def checkAssetsInAzure (listFiles : String → List String)
    (folderPath caseType : String) : Bool :=
  let assets := listFiles folderPath
  if caseType = "image" then decide (assets.length ≥ 3)
  else if caseType = "audio" then decide (assets.length ≥ 2)
  else if caseType = "video" then decide (assets.length ≥ 2)
  else if caseType = "text" then decide (assets.length ≥ 2)
  else if caseType = "hybrid" then decide (assets.length ≥ 3)
  else false

/-- `validateCasesInAzure` (lines 338-347): derives each case's type from
its name prefix (the same `lookup[...] || "image"` table) and checks
`gallery/cases/<name>`; order-aligned with the input. -/
def validateCasesInAzure (listFiles : String → List String)
    (cases : List String) : List Bool :=
  cases.map (fun name =>
    checkAssetsInAzure listFiles (jsConcat "gallery/cases/" name)
      (caseTypeOfName name))

/-- `candidate.filter((_, i) => validFlags[i])` (line 364): keeps the
candidates whose flag is true, preserving relative order. -/
def filterByFlags : List String → List Bool → List String
  | [], _ => []
  | _, [] => []
  | c :: cs, b :: bs =>
    if b then c :: filterByFlags cs bs else filterByFlags cs bs

/-- The bucket key of the categorized shuffle (lines 367-371):
`c.split("-")[0].toLowerCase()`, defaulting to the `image` bucket when the
prefix is none of the five bucket names (`(buckets[key] || buckets.image)`). -/
def bucketOf (c : String) : String :=
  let k := jsToLower ((jsSplit '-' c).headD "")
  if k = "image" ∨ k = "audio" ∨ k = "video" ∨ k = "text" ∨ k = "hybrid"
  then k else "image"

/-- The contents of one bucket after the single `forEach` pass over
`valid` (lines 368-371): the sublist of `valid` whose bucket key is `key`,
in original order. -/
def bucket (key : String) (l : List String) : List String :=
  l.filter (fun c => decide (bucketOf c = key))

/-- `fetchCasesFromAzure` (lines 358-384). The lodash `shuffle` calls are
nondeterministic; each call site is abstracted as its own function
argument (`shI`, `shH`, `shV`, `shA`, `shT` for the five per-bucket calls
of the categorized branch, `shFull` for the full-shuffle branch). -/
def fetchCasesFromAzure (listFolders : String → List String)
    (listFiles : String → List String) (configExists : Bool) (path : String)
    (cases : List String) (shuffleMode : String)
    (shI shH shV shA shT shFull : List String → List String) : List String :=
  let candidate := if configExists then cases else listFolders path
  let validFlags := validateCasesInAzure listFiles candidate
  let valid := filterByFlags candidate validFlags
  if shuffleMode = "categorized" then
    shI (bucket "image" valid) ++ shH (bucket "hybrid" valid) ++
      shV (bucket "video" valid) ++ shA (bucket "audio" valid) ++
      shT (bucket "text" valid)
  else if shuffleMode = "full" then shFull valid
  else valid

/-- The filtered valid-case sequence that `fetchCasesFromAzure` computes
before shuffling. -/
def azureValidCases (listFolders : String → List String)
    (listFiles : String → List String) (configExists : Bool) (path : String)
    (cases : List String) : List String :=
  filterByFlags (if configExists then cases else listFolders path)
    (validateCasesInAzure listFiles
      (if configExists then cases else listFolders path))

/-- A concrete Azure backend for exercising the categorized shuffle: every
case folder lists three blobs, so every case validates. -/
def azureAllValid : String → List String := fun _ => ["b1", "b2", "b3"]

/-! ## Theorems for C1 and C9 -/

/-- C1: for every folder path and every case type, `checkAssets` returns
true iff the number of files listed under the path reaches the fixed
per-type threshold (image and hybrid require 3; audio, video and text
require 2), and returns false for any case type outside these five. -/
theorem checkAssets_matches_threshold (listFiles : String → List String)
    (folderPath caseType : String) :
    checkAssetsInOneDrive listFiles folderPath caseType =
      match specThreshold caseType with
      | some k => decide (k ≤ (listFiles folderPath).length)
      | none => false := by
  unfold checkAssetsInOneDrive specThreshold
  by_cases h1 : caseType = "image" <;>
    by_cases h2 : caseType = "audio" <;>
      by_cases h3 : caseType = "video" <;>
        by_cases h4 : caseType = "text" <;>
          by_cases h5 : caseType = "hybrid" <;>
            simp_all

/-- C9: every entry of the shipped `SIZE_MAP` carries the label `"unknown"`,
because the reducer keys `SIZE_LABEL_MAP` by the first character of the
*second* hyphen-separated segment of the file name, while the size letter
(`a` or `b` for every manifest file) sits in the *third* segment just before
the extension. -/
theorem SIZE_MAP_all_unknown :
    (∀ e ∈ SIZE_MAP, e.2 = "unknown") ∧
    (∀ f ∈ ALL_FILES,
      ((jsSplit '-' f).getD 2 "").data.take 1 = ['a'] ∨
      ((jsSplit '-' f).getD 2 "").data.take 1 = ['b']) := by
  decide

/-- C4 counterexample: with the backend `lfBad` (the listing for case
`audio-x` fails, the listing for case `image-y` succeeds with three files),
`validateCasesInOneDrive` does not return a per-case result list at all —
the whole batch rejects with the listing error, instead of recording
`false` for `audio-x` and `true` for `image-y`. -/
theorem validateCases_batch_failure_cex :
    (validateCasesInOneDriveE lfBad ["image-y", "audio-x"]).isOk = false ∧
    validateCasesInOneDriveE lfBad ["image-y", "audio-x"] =
      Except.error "network" := by
  decide

/-- C4 (amended): if the backend listing call for any case in the input
fails, the whole `validateCases` batch fails with an error — no result is
returned for any case. -/
theorem validateCases_aborts_on_listing_failure
    (listFiles : String → Except String (List String)) (cases : List String)
    (name : String) (hmem : name ∈ cases) (e : String)
    (he : listFiles (jsConcat "/gallery/cases/" name) = .error e) :
    ∃ msg, validateCasesInOneDriveE listFiles cases = .error msg := by
  induction cases with
  | nil => cases hmem
  | cons c rest ih =>
    rcases List.mem_cons.mp hmem with rfl | hmem2
    · refine ⟨e, ?_⟩
      simp only [validateCasesInOneDriveE, List.map_cons, promiseAll,
        checkAssetsInOneDriveE, he]
    · cases hc : checkAssetsInOneDriveE listFiles
        (jsConcat "/gallery/cases/" c) (caseTypeOfName c) with
      | error e2 =>
        refine ⟨e2, ?_⟩
        simp only [validateCasesInOneDriveE, List.map_cons, promiseAll, hc]
      | ok b =>
        obtain ⟨msg, hmsg⟩ := ih hmem2
        refine ⟨msg, ?_⟩
        simp only [validateCasesInOneDriveE, List.map_cons, promiseAll, hc]
        simp only [validateCasesInOneDriveE] at hmsg
        rw [hmsg]

/-- C4 witness: the amended abort theorem applied to the concrete backend
`lfBad` and batch `["image-y", "audio-x"]`. -/
theorem validateCases_aborts_witness :
    ∃ msg, validateCasesInOneDriveE lfBad ["image-y", "audio-x"] =
      Except.error msg :=
  validateCases_aborts_on_listing_failure lfBad ["image-y", "audio-x"]
    "audio-x" (by decide) "network" (by decide)

/-- The Dropbox cursor loop returns the concatenation of all pages. -/
lemma listAllEntries_eq_join (pages : List (List DriveItem)) :
    listAllEntries pages = pages.flatten := by
  induction pages with
  | nil => rfl
  | cons p rest ih => simp [listAllEntries, ih]

/-- C3 counterexample: on a backend that paginates its listing into two
pages of one folder each, `listFoldersFromOneDrive` returns only the first
page's folder, undercounting the true number of folders. -/
theorem listFolders_pagination_cex :
    listFoldersFromOneDrive twoPageBackend = ["case-a"] ∧
    allFolderNames twoPageBackend = ["case-a", "case-b"] ∧
    (listFoldersFromOneDrive twoPageBackend).length <
      (allFolderNames twoPageBackend).length := by
  decide

/-- C3 (amended): the Dropbox `listFolders` exhausts the cursor chain and
returns the complete folder listing for every paginated backend, while
`listFoldersFromOneDrive` returns exactly the folders of the first page
(it never follows the continuation link). -/
theorem listFolders_dropbox_exhausts_onedrive_first_page
    (pages : List (List DriveItem)) :
    listFolders pages = allFolderNames pages ∧
    listFoldersFromOneDrive pages = allFolderNames [pages.headD []] := by
  constructor
  · simp [listFolders, allFolderNames, listAllEntries_eq_join]
  · simp [listFoldersFromOneDrive, allFolderNames]

/-- Timing-loop tail: over cycle indices that exclude 0, the loop adds the
elapsed times of the successful cycles to `sumFetch`, their number to
`count`, and leaves `headerSize` untouched. -/
lemma cycleLoop_timed (fetchCycle : Nat → Option (ℚ × List (String × String)))
    (l : List Nat) (h : 0 ∉ l) (s : CycleState) :
    (l.foldl (cycleStep fetchCycle) s).sumFetch
        = s.sumFetch + (l.filterMap (fun i => (fetchCycle i).map Prod.fst)).sum ∧
    (l.foldl (cycleStep fetchCycle) s).count
        = s.count + (l.filterMap (fun i => (fetchCycle i).map Prod.fst)).length ∧
    (l.foldl (cycleStep fetchCycle) s).headerSize = s.headerSize := by
  induction l generalizing s with
  | nil => simp
  | cons i rest ih =>
    have hi : i ≠ 0 := by
      rintro rfl
      exact h (List.mem_cons_self _ _)
    have hrest : 0 ∉ rest := fun hm => h (List.mem_cons_of_mem _ hm)
    cases hfi : fetchCycle i with
    | none =>
      have hstep : cycleStep fetchCycle s i = s := by
        simp [cycleStep, hfi]
      simpa [List.foldl_cons, hstep, List.filterMap_cons, hfi] using ih hrest s
    | some p =>
      have hstep : cycleStep fetchCycle s i =
          { s with sumFetch := s.sumFetch + p.1, count := s.count + 1 } := by
        simp [cycleStep, hfi, hi]
      obtain ⟨h1, h2, h3⟩ := ih hrest
        { s with sumFetch := s.sumFetch + p.1, count := s.count + 1 }
      refine ⟨?_, ?_, ?_⟩ <;>
        simp [List.foldl_cons, hstep, List.filterMap_cons, hfi, h1, h2, h3,
          add_assoc, add_comm, add_left_comm]

/-- The first cycle only sets `headerSize`; `sumFetch` and `count` stay
zero. -/
lemma cycleStep_zero (fetchCycle : Nat → Option (ℚ × List (String × String))) :
    cycleStep fetchCycle ⟨0, 0, 0⟩ 0 =
      ⟨0, 0, match fetchCycle 0 with
             | some (_, headers) => headerSizeBytesOf headers
             | none => 0⟩ := by
  cases hf0 : fetchCycle 0 with
  | none => simp [cycleStep, hf0]
  | some p => simp [cycleStep, hf0]

/-- The loop state after all 7 cycles, in closed form. -/
lemma runCycles_closed_form
    (fetchCycle : Nat → Option (ℚ × List (String × String))) :
    (runCycles fetchCycle).sumFetch = (specTimedCycles fetchCycle).sum ∧
    (runCycles fetchCycle).count = (specTimedCycles fetchCycle).length ∧
    (runCycles fetchCycle).headerSize =
      (match fetchCycle 0 with
       | some (_, headers) => headerSizeBytesOf headers
       | none => 0) := by
  have hrun : runCycles fetchCycle =
      ([1, 2, 3, 4, 5, 6] : List Nat).foldl (cycleStep fetchCycle)
        (cycleStep fetchCycle ⟨0, 0, 0⟩ 0) := rfl
  obtain ⟨h1, h2, h3⟩ := cycleLoop_timed fetchCycle [1, 2, 3, 4, 5, 6]
    (by decide) (cycleStep fetchCycle ⟨0, 0, 0⟩ 0)
  rw [cycleStep_zero] at h1 h2 h3
  refine ⟨?_, ?_, ?_⟩
  · rw [hrun, cycleStep_zero, h1]; simp [specTimedCycles]
  · rw [hrun, cycleStep_zero, h2]; simp [specTimedCycles]
  · rw [hrun, cycleStep_zero, h3]

/-- C2: the collector's 7-cycle loop discards cycle 0's elapsed time (that
cycle contributes only the header byte size), and the stored mean equals
the arithmetic mean of the elapsed times of the successful cycles among
1-6 — failed cycles drop out of the denominator, and when all six timed
cycles fail the mean is 0. -/
theorem fetchTimeMs_is_mean_of_timed_cycles
    (fetchCycle : Nat → Option (ℚ × List (String × String))) :
    avgFetch fetchCycle = specMean (specTimedCycles fetchCycle) ∧
    (runCycles fetchCycle).headerSize =
      (match fetchCycle 0 with
       | some (_, headers) => headerSizeBytesOf headers
       | none => 0) := by
  obtain ⟨h1, h2, h3⟩ := runCycles_closed_form fetchCycle
  refine ⟨?_, h3⟩
  rw [avgFetch, specMean]
  by_cases hnil : specTimedCycles fetchCycle = []
  · simp [hnil, h2]
  · have hlen : 0 < (specTimedCycles fetchCycle).length :=
      List.length_pos.mpr hnil
    simp [hnil, h1, h2, hlen]

/-- C10: when the cycle-0 header probe fails, the emitted `headerSizeBytes`
is 0 — the headers are never re-probed — while cycles 1-6 still accumulate
their elapsed times and success count as usual. -/
theorem headerSize_zero_when_cycle0_fails
    (fetchCycle : Nat → Option (ℚ × List (String × String)))
    (h0 : fetchCycle 0 = none) :
    (runCycles fetchCycle).headerSize = 0 ∧
    (runCycles fetchCycle).sumFetch = (specTimedCycles fetchCycle).sum ∧
    (runCycles fetchCycle).count = (specTimedCycles fetchCycle).length := by
  obtain ⟨h1, h2, h3⟩ := runCycles_closed_form fetchCycle
  rw [h0] at h3
  exact ⟨h3, h1, h2⟩

/-- C10 witness: the theorem applied to the concrete oracle whose cycle-0
probe fails and whose timed cycles succeed. -/
theorem headerSize_zero_when_cycle0_fails_witness :
    (runCycles cyclesHeaderProbeFails).headerSize = 0 ∧
    (runCycles cyclesHeaderProbeFails).sumFetch =
      (specTimedCycles cyclesHeaderProbeFails).sum ∧
    (runCycles cyclesHeaderProbeFails).count =
      (specTimedCycles cyclesHeaderProbeFails).length :=
  headerSize_zero_when_cycle0_fails cyclesHeaderProbeFails rfl

/-- The record built for a URL carries that URL in `fileURL`. -/
lemma mkMetricRecord_fileURL (providerName country continent routeKey url :
    String) (env : MeasureEnv) :
    (mkMetricRecord providerName country continent routeKey url env).fileURL
      = url := rfl

/-- Appending one record adds 1 to the count of its own URL and 0 to every
other URL's count. -/
lemma urlCount_append (ms : List MetricRecord) (m : MetricRecord)
    (u : String) :
    urlCount (ms ++ [m]) u =
      urlCount ms u + (if m.fileURL = u then 1 else 0) := by
  by_cases h : m.fileURL = u <;> simp [urlCount, List.filter_append, h]

/-- The dedup invariant: every URL has at most one record, and a URL absent
from the seen set has none. -/
def sessionInv (st : SessionState) : Prop :=
  ∀ u, urlCount st.allMetrics u ≤ 1 ∧
    (u ∉ st.recorded → urlCount st.allMetrics u = 0)

/-- `captureUrl` preserves the dedup invariant. -/
lemma captureUrl_inv (providerName country continent : String)
    (env : String → MeasureEnv) (routeKey : String) (st : SessionState)
    (url : String) (h : sessionInv st) :
    sessionInv (captureUrl providerName country continent env routeKey st
      url) := by
  intro u
  by_cases hmem : url ∈ st.recorded
  · simpa [captureUrl, hmem] using h u
  · simp only [captureUrl, if_neg hmem]
    rcases h u with ⟨hle, habs⟩
    by_cases hu : u = url
    · subst hu
      have h0 : urlCount st.allMetrics u = 0 := habs hmem
      constructor
      · simp [urlCount_append, h0, mkMetricRecord_fileURL]
      · intro hun
        exact absurd (List.mem_cons_self u st.recorded) hun
    · have hne : (mkMetricRecord providerName country continent routeKey url
          (env url)).fileURL = u ↔ False := by
        simp [mkMetricRecord_fileURL]
        exact fun hh => hu hh.symm
      constructor
      · simp [urlCount_append, hne, hle]
      · intro hun
        have hnr : u ∉ st.recorded := fun hh =>
          hun (List.mem_cons_of_mem _ hh)
        simp [urlCount_append, hne, habs hnr]

/-- `captureVisit` preserves the dedup invariant. -/
lemma captureVisit_inv (providerName country continent : String)
    (env : String → MeasureEnv) (routeKey : String) (urls : List String)
    (st : SessionState) (h : sessionInv st) :
    sessionInv (captureVisit providerName country continent env routeKey st
      urls) := by
  induction urls generalizing st with
  | nil => exact h
  | cons url rest ih =>
    exact ih _ (captureUrl_inv providerName country continent env routeKey
      st url h)

/-- Every session state reached from the empty session satisfies the dedup
invariant. -/
lemma runSession_inv (providerName country continent : String)
    (env : String → MeasureEnv) (visits : List (String × List String)) :
    sessionInv (runSession providerName country continent env visits) := by
  have hgen : ∀ (vs : List (String × List String)) (st : SessionState),
      sessionInv st →
      sessionInv (vs.foldl
        (fun st v => captureVisit providerName country continent env v.1 st
          v.2) st) := by
    intro vs
    induction vs with
    | nil => exact fun st h => h
    | cons v rest ih =>
      intro st h
      exact ih _ (captureVisit_inv providerName country continent env v.1
        v.2 st h)
  refine hgen visits ⟨[], []⟩ ?_
  intro u
  simp [urlCount]

/-- C5: within one session, at most one metric record is ever created per
URL — the seen-URL set is consulted, and the URL added to it, before
measurement, so re-entering the same case-view route never produces a
second record for an already-measured URL. -/
theorem metrics_unique_per_url (providerName country continent : String)
    (env : String → MeasureEnv) (visits : List (String × List String))
    (url : String) :
    urlCount
      (runSession providerName country continent env visits).allMetrics
      url ≤ 1 :=
  (runSession_inv providerName country continent env visits url).1

/-- C8 counterexample: the header row the export emits for a concrete
one-record log is the record literal's key list, which differs from the
column names of the spec's §3 MetricRecord data model (`storageProvider`,
`size`, `fileSize`, `memoryDelta` versus `provider`, `sizeLabel`,
`fileSizeHuman`, `memoryDeltaHuman`). -/
theorem report_columns_cex :
    ((csvTable [sampleRecord]).map Prod.fst) = some metricKeys ∧
    metricKeys ≠ specColumns := by
  exact ⟨rfl, by decide⟩

/-- C8 (amended): for every non-empty log, the export emits the key list of
the first record (`route`, `storageProvider`, `country`, `continent`,
`fileURL`, `fileName`, `fileType`, `size`, `fileSize`, `fetchTimeMs`,
`throughputKBps`, `payloadKB`, `headerSizeBytes`, `memoryDelta`) as the
header, and one row per record in arrival order, each row holding exactly
those fields' values in that key order. -/
theorem csvTable_schema (m : MetricRecord) (ms : List MetricRecord) :
    csvTable (m :: ms) = some (metricKeys, (m :: ms).map specRow) := by
  have hrow : (fun r : MetricRecord => metricKeys.map (fieldValue r))
      = specRow := funext fun r => rfl
  simp only [csvTable, objectKeys, hrow]

/-- Once `hasDownloaded.current` is set, the export guard never passes
again. -/
lemma countExports_flagged (events : List (String × List MetricRecord)) :
    countExports events true = 0 := by
  induction events with
  | nil => rfl
  | cons ev rest ih => simp [countExports, exportCondition, ih]

/-- C6: over any sequence of invocations of the download effect — any
number of visits to the terminal route included — the export fires at most
once: the first firing sets the one-shot flag, which blocks every later
invocation. -/
theorem export_fires_at_most_once
    (events : List (String × List MetricRecord)) :
    countExports events false ≤ 1 := by
  induction events with
  | nil => simp [countExports]
  | cons ev rest ih =>
    by_cases h : exportCondition false ev.1 ev.2
    · simp [countExports, h, countExports_flagged]
    · simp [countExports, h, ih]

/-- Every case name lands in exactly one of the five buckets. -/
lemma bucketOf_cases (c : String) :
    bucketOf c = "image" ∨ bucketOf c = "hybrid" ∨ bucketOf c = "video" ∨
    bucketOf c = "audio" ∨ bucketOf c = "text" := by
  simp only [bucketOf]
  split_ifs with h
  · tauto
  · tauto

/-- A name whose bucket key is `key` is counted fully by that bucket. -/
lemma count_bucket_eq (key a : String) (l : List String)
    (h : bucketOf a = key) : (bucket key l).count a = l.count a := by
  induction l with
  | nil => rfl
  | cons c cs ih =>
    by_cases hc : bucketOf c = key <;>
      by_cases hca : c = a <;>
        simp_all [bucket, List.filter_cons, List.count_cons]

/-- A name whose bucket key is not `key` never appears in that bucket. -/
lemma count_bucket_ne (key a : String) (l : List String)
    (h : bucketOf a ≠ key) : (bucket key l).count a = 0 := by
  rw [List.count_eq_zero]
  intro hmem
  rw [bucket, List.mem_filter] at hmem
  exact h (by simpa using hmem.2)

/-- The five buckets partition the valid-case list: their concatenation is
a permutation of it. -/
lemma bucket_partition_perm (l : List String) :
    (bucket "image" l ++ bucket "hybrid" l ++ bucket "video" l ++
      bucket "audio" l ++ bucket "text" l).Perm l := by
  rw [List.perm_iff_count]
  intro a
  rcases bucketOf_cases a with h | h | h | h | h <;>
    rw [List.count_append, List.count_append, List.count_append,
      List.count_append] <;>
    [rw [count_bucket_eq _ _ _ h, count_bucket_ne _ _ _ (by rw [h]; decide),
        count_bucket_ne _ _ _ (by rw [h]; decide),
        count_bucket_ne _ _ _ (by rw [h]; decide),
        count_bucket_ne _ _ _ (by rw [h]; decide)];
     rw [count_bucket_eq _ _ _ h, count_bucket_ne _ _ _ (by rw [h]; decide),
        count_bucket_ne _ _ _ (by rw [h]; decide),
        count_bucket_ne _ _ _ (by rw [h]; decide),
        count_bucket_ne _ _ _ (by rw [h]; decide)];
     rw [count_bucket_eq _ _ _ h, count_bucket_ne _ _ _ (by rw [h]; decide),
        count_bucket_ne _ _ _ (by rw [h]; decide),
        count_bucket_ne _ _ _ (by rw [h]; decide),
        count_bucket_ne _ _ _ (by rw [h]; decide)];
     rw [count_bucket_eq _ _ _ h, count_bucket_ne _ _ _ (by rw [h]; decide),
        count_bucket_ne _ _ _ (by rw [h]; decide),
        count_bucket_ne _ _ _ (by rw [h]; decide),
        count_bucket_ne _ _ _ (by rw [h]; decide)];
     rw [count_bucket_eq _ _ _ h, count_bucket_ne _ _ _ (by rw [h]; decide),
        count_bucket_ne _ _ _ (by rw [h]; decide),
        count_bucket_ne _ _ _ (by rw [h]; decide),
        count_bucket_ne _ _ _ (by rw [h]; decide)]] <;>
    omega

/-- C7: with `shuffleMode = "categorized"`, `fetchCasesFromAzure` returns
the five buckets of the filtered valid-case sequence — keyed by case-type
prefix, unmatched prefixes falling into the image bucket — each bucket
independently permuted, concatenated in the fixed order image, hybrid,
video, audio, text; the result is a permutation of the valid-case
sequence. -/
theorem fetchCases_categorized_buckets
    (listFoldersB listFiles : String → List String) (configExists : Bool)
    (path : String) (cases : List String)
    (shI shH shV shA shT shFull : List String → List String)
    (hI : ∀ l, (shI l).Perm l) (hH : ∀ l, (shH l).Perm l)
    (hV : ∀ l, (shV l).Perm l) (hA : ∀ l, (shA l).Perm l)
    (hT : ∀ l, (shT l).Perm l) :
    fetchCasesFromAzure listFoldersB listFiles configExists path cases
        "categorized" shI shH shV shA shT shFull =
      shI (bucket "image"
          (azureValidCases listFoldersB listFiles configExists path cases)) ++
        shH (bucket "hybrid"
          (azureValidCases listFoldersB listFiles configExists path cases)) ++
        shV (bucket "video"
          (azureValidCases listFoldersB listFiles configExists path cases)) ++
        shA (bucket "audio"
          (azureValidCases listFoldersB listFiles configExists path cases)) ++
        shT (bucket "text"
          (azureValidCases listFoldersB listFiles configExists path cases)) ∧
    (fetchCasesFromAzure listFoldersB listFiles configExists path cases
        "categorized" shI shH shV shA shT shFull).Perm
      (azureValidCases listFoldersB listFiles configExists path cases) := by
  refine ⟨rfl, ?_⟩
  show (shI _ ++ shH _ ++ shV _ ++ shA _ ++ shT _).Perm _
  exact (((((hI _).append (hH _)).append (hV _)).append (hA _)).append
    (hT _)).trans (bucket_partition_perm _)

/-- C7 witness: the bucket theorem applied to a concrete all-valid backend,
a preconfigured case list covering every bucket, and identity shuffles. -/
theorem fetchCases_categorized_buckets_witness :
    fetchCasesFromAzure (fun _ => []) azureAllValid true ""
        ["image-a", "hybrid-b", "video-c", "audio-d", "text-e"]
        "categorized" id id id id id id =
      id (bucket "image" (azureValidCases (fun _ => []) azureAllValid true ""
          ["image-a", "hybrid-b", "video-c", "audio-d", "text-e"])) ++
        id (bucket "hybrid" (azureValidCases (fun _ => []) azureAllValid true
          "" ["image-a", "hybrid-b", "video-c", "audio-d", "text-e"])) ++
        id (bucket "video" (azureValidCases (fun _ => []) azureAllValid true
          "" ["image-a", "hybrid-b", "video-c", "audio-d", "text-e"])) ++
        id (bucket "audio" (azureValidCases (fun _ => []) azureAllValid true
          "" ["image-a", "hybrid-b", "video-c", "audio-d", "text-e"])) ++
        id (bucket "text" (azureValidCases (fun _ => []) azureAllValid true
          "" ["image-a", "hybrid-b", "video-c", "audio-d", "text-e"])) ∧
    (fetchCasesFromAzure (fun _ => []) azureAllValid true ""
        ["image-a", "hybrid-b", "video-c", "audio-d", "text-e"]
        "categorized" id id id id id id).Perm
      (azureValidCases (fun _ => []) azureAllValid true ""
        ["image-a", "hybrid-b", "video-c", "audio-d", "text-e"]) :=
  fetchCases_categorized_buckets (fun _ => []) azureAllValid true ""
    ["image-a", "hybrid-b", "video-c", "audio-d", "text-e"]
    id id id id id id
    (fun l => List.Perm.refl l) (fun l => List.Perm.refl l)
    (fun l => List.Perm.refl l) (fun l => List.Perm.refl l)
    (fun l => List.Perm.refl l)

end Huldra
